import Mathlib

/-!
# Verification of the health-data importer's table-sync core

Shallow embedding of `src/health_data_importer.py` (SQLite → PostgreSQL
table synchronizer).  Pure computations (type mapping, dedup-column
selection, row partitioning, row validation) are translated directly;
the effectful parts of `sync_table` and `main` are modelled by making the
results of each external operation (column introspection + DDL, source
row fetch, existing-key query, bulk insert) explicit inputs in a
`TableEnv` record, and by recording in a `SyncOutcome` record which
operations were issued and with which counts.  A Python exception that
`sync_table` itself does not catch (the `row[idx]` IndexError in the
dedup partition loop) is modelled as `Except.error`; exceptions the code
catches locally are folded into the corresponding branch of the model.
-/

set_option autoImplicit false

namespace HealthSync

/-- A scalar value stored in a source row (SQLite dynamic typing:
`NULL`, integer, text, or blob).  Only equality of values matters to the
sync algorithm (set membership of dedup keys), so reals are representable
as any distinct constructor; we include text/int/null/blob. -/
inductive Val where
  | null : Val
  | int : Int → Val
  | text : String → Val
  | blob : List Nat → Val
deriving DecidableEq, Repr

/-- A source row: ordered positional values, as returned by `fetchall`. -/
abbrev Row := List Val

/-- One column of `PRAGMA table_info`: name (`col[1]`) and declared type
(`col[2]`, with Python `col[2] or ""` already applied, so `None` is `""`). -/
structure SourceColumn where
  name : String
  declType : String
deriving DecidableEq, Repr

/-- Python's `str.upper()` on the (ASCII) declared type names, modelled
character by character so that it evaluates structurally. -/
def upperStr (s : String) : String := String.mk (s.data.map Char.toUpper)

/-- Python's `str.startswith(pre)`, modelled on the character lists. -/
def strStartsWith (s pre : String) : Bool := pre.data.isPrefixOf s.data

/-- The type-mapping branch of `get_create_table_query` (lines 88-101):
uppercase the declared type, then: empty → TEXT, prefix INT → BIGINT,
prefix REAL → DOUBLE PRECISION, prefix BLOB → BYTEA, else TEXT. -/
def mapType (declType : String) : String :=
  let t := upperStr declType
  if t = "" then "TEXT"
  else if strStartsWith t "INT" then "BIGINT"
  else if strStartsWith t "REAL" then "DOUBLE PRECISION"
  else if strStartsWith t "BLOB" then "BYTEA"
  else "TEXT"

/-- `get_create_table_query` (lines 83-107): returns the CREATE TABLE
statement and the ordered list of column names. -/
def get_create_table_query (table : String) (columns : List SourceColumn) :
    String × List String :=
  let colDefs := columns.map (fun c => "\"" ++ c.name ++ "\" " ++ mapType c.declType)
  let createSql :=
    "CREATE TABLE IF NOT EXISTS \"" ++ table ++ "\" ("
      ++ String.intercalate ", " colDefs ++ ");"
  (createSql, columns.map SourceColumn.name)

/-- The fixed dedup-candidate priority list of line 132. -/
def dedupCandidates : List String := ["row_id", "local_date_time", "time"]

/-- Dedup key selection (lines 131-135): the first candidate occurring
among the column names, `none` when no candidate is present. -/
def selectDedupCol (columnNames : List String) : Option String :=
  dedupCandidates.find? (fun c => columnNames.contains c)

/-- The dedup partition loop of lines 152-158, specialised to a selected
dedup column at position `idx`.  For each row, Python evaluates
`row[idx]`; a row with at most `idx` values raises IndexError, which
`sync_table` does not catch — modelled as `Except.error ()`.  Otherwise
a row whose value is in `existingKeys` increments `already_present`, and
every other row is appended to `new_rows`. -/
def partitionGo (idx : Nat) (existingKeys : List Val) :
    List Row → Except Unit (List Row × Nat)
  | [] => Except.ok ([], 0)
  | r :: rs =>
    match r[idx]? with
    | none => Except.error ()
    | some v =>
      match partitionGo idx existingKeys rs with
      | Except.error e => Except.error e
      | Except.ok (ns, ap) =>
        if existingKeys.contains v then Except.ok (ns, ap + 1)
        else Except.ok (r :: ns, ap)

/-- Lines 149-158 as a whole: with no dedup column every row is new and
`already_present` stays 0; with a dedup column, partition at its index
(`column_names.index(dedup_col)`, the first occurrence). -/
def partitionStep (dedupCol : Option String) (columnNames : List String)
    (existingKeys : List Val) (rows : List Row) : Except Unit (List Row × Nat) :=
  match dedupCol with
  | none => Except.ok (rows, 0)
  | some c => partitionGo (columnNames.indexOf c) existingKeys rows

/-- The validation loop of lines 165-174: a row with fewer than `n`
values is skipped and counted; otherwise its first `n` values are
appended to `valid_rows` (truncating any excess). -/
def validateRows (n : Nat) : List Row → List Row × Nat
  | [] => ([], 0)
  | r :: rs =>
    let acc := validateRows n rs
    if r.length < n then (acc.1, acc.2 + 1)
    else (r.take n :: acc.1, acc.2)

/-- The existing-key step of lines 137-147: with no dedup column the
query is never issued; with one, a successful query yields its values
and a failed query degrades to the empty set with a logged warning.
Result: (existing keys, key query issued?, warning logged?). -/
def keysAndWarn (dedupCol : Option String) (kq : Except Unit (List Val)) :
    List Val × Bool × Bool :=
  match dedupCol with
  | none => ([], false, false)
  | some _ =>
    match kq with
    | Except.ok ks => (ks, true, false)
    | Except.error _ => ([], true, true)

/-- How one call to `sync_table` ended. -/
inductive SyncExit where
  /-- Returned at line 113: table not in the inclusion set. -/
  | filtered : SyncExit
  /-- Returned at line 122: introspection/DDL raised. -/
  | createError : SyncExit
  /-- Returned at line 129: the source `SELECT *` raised. -/
  | fetchError : SyncExit
  /-- Fell through to line 194: the pass ran to its end. -/
  | completed : SyncExit
deriving DecidableEq, Repr

/-- Observable outcome of one `sync_table` call: which store operations
were issued, and the counts the function logs. -/
structure SyncOutcome where
  exit : SyncExit
  /-- `PRAGMA table_info` issued against the source (line 84). -/
  didIntrospect : Bool := false
  /-- CREATE TABLE executed against the destination (line 118). -/
  didDDL : Bool := false
  /-- `SELECT *` issued against the source (line 125). -/
  didFetchRows : Bool := false
  /-- existing-key SELECT issued against the destination (line 140). -/
  didKeyQuery : Bool := false
  /-- the warning of line 146 was logged. -/
  keyWarn : Bool := false
  /-- `executemany` attempted (line 178). -/
  insertAttempted : Bool := false
  /-- `executemany` raised and the transaction was rolled back (line 182). -/
  insertFailed : Bool := false
  /-- the `valid_rows` list submitted to `executemany`. -/
  submitted : List Row := []
  /-- rows reported inserted (line 180); 0 when no insert succeeded. -/
  insertedCount : Nat := 0
  /-- the `already_present` counter of line 150/156. -/
  alreadyPresent : Nat := 0
  /-- the `skipped_rows` counter of line 166/170. -/
  skippedMalformed : Nat := 0
deriving DecidableEq, Repr

/-- Lines 160-194, after partitioning: no new rows → nothing attempted;
otherwise validate, and attempt the bulk insert only when `valid_rows`
is non-empty, recording success or rollback. -/
def insertPhase (n : Nat) (insertOk : Bool) (newRows : List Row) (ap : Nat)
    (didKeyQuery keyWarn : Bool) : SyncOutcome :=
  if newRows.isEmpty then
    { exit := SyncExit.completed, didIntrospect := true, didDDL := true,
      didFetchRows := true, didKeyQuery := didKeyQuery, keyWarn := keyWarn,
      alreadyPresent := ap }
  else
    let v := validateRows n newRows
    if v.1.isEmpty then
      { exit := SyncExit.completed, didIntrospect := true, didDDL := true,
        didFetchRows := true, didKeyQuery := didKeyQuery, keyWarn := keyWarn,
        alreadyPresent := ap, skippedMalformed := v.2 }
    else if insertOk then
      { exit := SyncExit.completed, didIntrospect := true, didDDL := true,
        didFetchRows := true, didKeyQuery := didKeyQuery, keyWarn := keyWarn,
        insertAttempted := true, submitted := v.1, insertedCount := v.1.length,
        alreadyPresent := ap, skippedMalformed := v.2 }
    else
      { exit := SyncExit.completed, didIntrospect := true, didDDL := true,
        didFetchRows := true, didKeyQuery := didKeyQuery, keyWarn := keyWarn,
        insertAttempted := true, insertFailed := true, submitted := v.1,
        alreadyPresent := ap, skippedMalformed := v.2 }

/-- The environment one `sync_table` call runs against: the outcome of
each external operation it may issue.  `Except.error ()` models the
operation raising an exception. -/
structure TableEnv where
  /-- result of `PRAGMA table_info` + the try-block around DDL setup;
  `error` models lines 115-122 raising before the DDL executes. -/
  columnInfo : Except Unit (List SourceColumn)
  /-- the destination CREATE TABLE of line 118 succeeds. -/
  ddlOk : Bool
  /-- result of `SELECT * FROM table` (lines 124-129). -/
  rowsResult : Except Unit (List Row)
  /-- result of the existing-key SELECT (lines 139-147), consulted only
  when a dedup column was selected. -/
  keyQueryResult : Except Unit (List Val)
  /-- the `executemany` of line 178 succeeds. -/
  insertOk : Bool

/-- Everything `sync_table` does after a successful row fetch
(lines 131-194): select the dedup column, build the existing-key set,
partition, validate, insert. -/
def syncBody (columnNames : List String) (kq : Except Unit (List Val))
    (insertOk : Bool) (rows : List Row) : Except Unit SyncOutcome :=
  let dedupCol := selectDedupCol columnNames
  let kw := keysAndWarn dedupCol kq
  match partitionStep dedupCol columnNames kw.1 rows with
  | Except.error e => Except.error e
  | Except.ok (newRows, ap) =>
    Except.ok (insertPhase columnNames.length insertOk newRows ap kw.2.1 kw.2.2)

/-- `sync_table` (lines 110-194).  `Except.error ()` is an exception the
function itself does not catch (the partition loop's IndexError), which
propagates to the caller. -/
def syncTable (table : String) (tablesToImport : List String)
    (env : TableEnv) : Except Unit SyncOutcome :=
  if tablesToImport.contains table = false then
    Except.ok { exit := SyncExit.filtered }
  else
    match env.columnInfo with
    | Except.error _ =>
      Except.ok { exit := SyncExit.createError, didIntrospect := true }
    | Except.ok cols =>
      if env.ddlOk = false then
        Except.ok { exit := SyncExit.createError, didIntrospect := true,
                    didDDL := true }
      else
        match env.rowsResult with
        | Except.error _ =>
          Except.ok { exit := SyncExit.fetchError, didIntrospect := true,
                      didDDL := true, didFetchRows := true }
        | Except.ok rows =>
          syncBody (get_create_table_query table cols).2 env.keyQueryResult
            env.insertOk rows

/-- What the driver records for one table of the enumeration. -/
inductive DriverOutcome where
  /-- `sync_table` returned normally (possibly with a per-table error
  outcome it handled itself). -/
  | synced : SyncOutcome → DriverOutcome
  /-- `sync_table` raised; `main` caught and logged it (lines 226-227). -/
  | unhandledLogged : DriverOutcome
deriving DecidableEq, Repr

/-- One iteration of the driver loop (lines 223-227): call `sync_table`,
catching any exception it lets escape. -/
def driverStep (tablesToImport : List String) (envOf : String → TableEnv)
    (t : String) : DriverOutcome :=
  match syncTable t tablesToImport (envOf t) with
  | Except.ok o => DriverOutcome.synced o
  | Except.error _ => DriverOutcome.unhandledLogged

/-- The driver loop of `main` over the enumerated source tables. -/
def runAll (tablesToImport : List String) (envOf : String → TableEnv)
    (tables : List String) : List DriverOutcome :=
  tables.map (driverStep tablesToImport envOf)

/-! ### Specification-side definitions (used to state the claims) -/

/-- The destination type enumeration named by the specification. -/
inductive DestType where
  | TEXT : DestType
  | BIGINT : DestType
  | DOUBLE : DestType
  | BINARY : DestType
deriving DecidableEq, Repr

/-- Modelled from the spec (§4.1 type-mapping rule): applied to the
uppercased declared type — empty → TEXT, prefix INT → BIGINT, prefix
REAL → DOUBLE, prefix BLOB → BINARY, anything else → TEXT. -/
def specDestType (declType : String) : DestType :=
  let t := upperStr declType
  if t = "" then DestType.TEXT
  else if strStartsWith t "INT" then DestType.BIGINT
  else if strStartsWith t "REAL" then DestType.DOUBLE
  else if strStartsWith t "BLOB" then DestType.BINARY
  else DestType.TEXT

/-- PostgreSQL spelling of each abstract destination type. -/
def pgRender : DestType → String
  | DestType.TEXT => "TEXT"
  | DestType.BIGINT => "BIGINT"
  | DestType.DOUBLE => "DOUBLE PRECISION"
  | DestType.BINARY => "BYTEA"

/-- The value a row carries at the dedup position (total version; only
used under the hypothesis that the position is in range). -/
def rowKey (idx : Nat) (r : Row) : Val := r.getD idx Val.null

/-- Multiplicity of a row in a list (spec-side, for the no-intra-run
deduplication property). -/
def countRow (r : Row) (l : List Row) : Nat :=
  (l.filter (fun x => decide (x = r))).length

instance decEqExcept {ε α : Type} [DecidableEq ε] [DecidableEq α] :
    DecidableEq (Except ε α) := fun a b =>
  match a, b with
  | Except.error x, Except.error y =>
    if h : x = y then Decidable.isTrue (by rw [h])
    else Decidable.isFalse (fun hc => h (Except.error.inj hc))
  | Except.error _, Except.ok _ => Decidable.isFalse (fun hc => Except.noConfusion hc)
  | Except.ok _, Except.error _ => Decidable.isFalse (fun hc => Except.noConfusion hc)
  | Except.ok x, Except.ok y =>
    if h : x = y then Decidable.isTrue (by rw [h])
    else Decidable.isFalse (fun hc => h (Except.ok.inj hc))

/-! ### Helper lemmas -/

/-- When every row is long enough for the dedup index, the partition
loop never raises: the new rows are exactly those whose key value is not
in `K` (in source order), and `already_present` counts the rest. -/
theorem partitionGo_eq (idx : Nat) (K : List Val) (rows : List Row)
    (h : ∀ r ∈ rows, idx < r.length) :
    partitionGo idx K rows =
      Except.ok (rows.filter (fun r => !K.contains (rowKey idx r)),
        (rows.filter (fun r => K.contains (rowKey idx r))).length) := by
  induction rows with
  | nil => rfl
  | cons r rs ih =>
    have hr : idx < r.length := h r (List.mem_cons_self _ _)
    have hrs : ∀ x ∈ rs, idx < x.length := fun x hx => h x (List.mem_cons_of_mem _ hx)
    have hget : r[idx]? = some (rowKey idx r) := by
      simp [rowKey, List.getD_eq_getElem?_getD, List.getElem?_eq_getElem hr]
    simp only [partitionGo, hget, ih hrs, List.filter_cons]
    cases hk : K.contains (rowKey idx r) <;> simp [hk]

/-- The validation loop keeps (truncated to `n` values, in source order)
exactly the rows with at least `n` values and counts the rest. -/
theorem validateRows_eq (n : Nat) (rows : List Row) :
    validateRows n rows =
      ((rows.filter (fun r => !decide (r.length < n))).map (fun r => r.take n),
        (rows.filter (fun r => decide (r.length < n))).length) := by
  induction rows with
  | nil => rfl
  | cons r rs ih =>
    simp only [validateRows, ih, List.filter_cons]
    by_cases hl : r.length < n <;> simp [hl]

/-- Closed form of the insert phase. -/
theorem insertPhase_eq (n : Nat) (insertOk : Bool) (newRows : List Row)
    (ap : Nat) (dkq kw : Bool) :
    insertPhase n insertOk newRows ap dkq kw =
      { exit := SyncExit.completed, didIntrospect := true, didDDL := true,
        didFetchRows := true, didKeyQuery := dkq, keyWarn := kw,
        insertAttempted := !(validateRows n newRows).1.isEmpty,
        insertFailed := !(validateRows n newRows).1.isEmpty && !insertOk,
        submitted := (validateRows n newRows).1,
        insertedCount :=
          if (validateRows n newRows).1.isEmpty = false ∧ insertOk = true
          then (validateRows n newRows).1.length else 0,
        alreadyPresent := ap,
        skippedMalformed := (validateRows n newRows).2 } := by
  unfold insertPhase
  by_cases hne : newRows.isEmpty
  · have hnil : newRows = [] := List.isEmpty_iff.mp hne
    subst hnil
    simp [validateRows]
  · simp only [hne, if_false]
    by_cases hv : (validateRows n newRows).1.isEmpty
    · have hvnil : (validateRows n newRows).1 = [] := List.isEmpty_iff.mp hv
      simp [hne, hv, hvnil]
    · cases insertOk <;> simp [hne, hv]

/-- On the happy path up to the row fetch, `sync_table` is `syncBody` on
the introspected column names. -/
theorem syncTable_run (table : String) (incl : List String) (env : TableEnv)
    (cols : List SourceColumn) (rows : List Row)
    (hin : incl.contains table = true)
    (hci : env.columnInfo = Except.ok cols)
    (hddl : env.ddlOk = true)
    (hrows : env.rowsResult = Except.ok rows) :
    syncTable table incl env =
      syncBody (cols.map SourceColumn.name) env.keyQueryResult env.insertOk
        rows := by
  have hmem : table ∈ incl := by simpa using hin
  simp [syncTable, hmem, hci, hddl, hrows, get_create_table_query]

/-- With no dedup column, the body partitions nothing: all rows proceed
to validation, `already_present` is 0, no key query, no warning. -/
theorem syncBody_none (names : List String) (kq : Except Unit (List Val))
    (insertOk : Bool) (rows : List Row)
    (hded : selectDedupCol names = none) :
    syncBody names kq insertOk rows =
      Except.ok (insertPhase names.length insertOk rows 0 false false) := by
  simp [syncBody, hded, keysAndWarn, partitionStep]

/-- With a dedup column and all rows long enough, the body filters by
membership of the row's key value in the effective key set. -/
theorem syncBody_some (names : List String) (kq : Except Unit (List Val))
    (insertOk : Bool) (rows : List Row) (c : String)
    (hded : selectDedupCol names = some c)
    (hlen : ∀ r ∈ rows, names.indexOf c < r.length) :
    syncBody names kq insertOk rows =
      Except.ok (insertPhase names.length insertOk
        (rows.filter (fun r =>
          !(keysAndWarn (some c) kq).1.contains (rowKey (names.indexOf c) r)))
        ((rows.filter (fun r =>
          (keysAndWarn (some c) kq).1.contains (rowKey (names.indexOf c) r))).length)
        true (keysAndWarn (some c) kq).2.2) := by
  have h21 : (keysAndWarn (some c) kq).2.1 = true := by
    cases kq <;> rfl
  simp only [syncBody, hded, partitionStep, partitionGo_eq _ _ _ hlen]
  rw [h21]

/-- The partition loop returns normally only when every row has a value
at the dedup index. -/
theorem partitionGo_ok_len (idx : Nat) (K : List Val) (rows : List Row)
    (p : List Row × Nat) (h : partitionGo idx K rows = Except.ok p) :
    ∀ r ∈ rows, idx < r.length := by
  induction rows generalizing p with
  | nil => simp
  | cons r rs ih =>
    intro x hx
    simp only [partitionGo] at h
    cases hget : r[idx]? with
    | none => rw [hget] at h; exact absurd h (by simp)
    | some v =>
      rw [hget] at h
      cases hrec : partitionGo idx K rs with
      | error e => rw [hrec] at h; exact absurd h (by simp)
      | ok q =>
        rcases List.mem_cons.mp hx with rfl | hx
        · exact (List.getElem?_eq_some.mp hget).1
        · exact ih q hrec x hx

/-- Partitioning a concatenation partitions each part against the same
key set: the membership test for later rows is unaffected by earlier
ones (the key set is never updated during the pass). -/
theorem partitionGo_append (idx : Nat) (K : List Val) (xs ys : List Row)
    (n₁ n₂ : List Row) (a₁ a₂ : Nat)
    (hx : partitionGo idx K xs = Except.ok (n₁, a₁))
    (hy : partitionGo idx K ys = Except.ok (n₂, a₂)) :
    partitionGo idx K (xs ++ ys) = Except.ok (n₁ ++ n₂, a₁ + a₂) := by
  have hlx := partitionGo_ok_len idx K xs _ hx
  have hly := partitionGo_ok_len idx K ys _ hy
  have hlxy : ∀ r ∈ xs ++ ys, idx < r.length := by
    intro r hr
    rcases List.mem_append.mp hr with h | h
    exacts [hlx r h, hly r h]
  rw [partitionGo_eq idx K xs hlx] at hx
  rw [partitionGo_eq idx K ys hly] at hy
  rw [partitionGo_eq idx K (xs ++ ys) hlxy]
  obtain ⟨rfl, rfl⟩ := Prod.mk.inj (Except.ok.inj hx)
  obtain ⟨rfl, rfl⟩ := Prod.mk.inj (Except.ok.inj hy)
  rw [List.filter_append, List.filter_append, List.length_append]

/-- Filtering by a predicate the row satisfies does not change the
row's multiplicity. -/
theorem countRow_filter (p : Row → Bool) (r : Row) (l : List Row)
    (h : p r = true) : countRow r (l.filter p) = countRow r l := by
  unfold countRow
  rw [List.filter_filter]
  congr 1
  apply List.filter_congr
  intro a _
  by_cases ha : a = r
  · subst ha; simp [h]
  · simp [ha]

/-- Every normal return of `sync_table` is either one of the three early
returns (which attempt no insert) or an outcome of the insert phase. -/
theorem syncTable_shape (table : String) (incl : List String) (env : TableEnv)
    (o : SyncOutcome) (h : syncTable table incl env = Except.ok o) :
    (o.exit ≠ SyncExit.completed ∧ o.submitted = [] ∧
      o.insertAttempted = false ∧ o.insertedCount = 0 ∧
      o.insertFailed = false) ∨
    (∃ n ok newRows ap dkq kw, o = insertPhase n ok newRows ap dkq kw) := by
  unfold syncTable at h
  split at h
  · obtain rfl := Except.ok.inj h
    exact Or.inl ⟨by simp, rfl, rfl, rfl, rfl⟩
  · split at h
    · obtain rfl := Except.ok.inj h
      exact Or.inl ⟨by simp, rfl, rfl, rfl, rfl⟩
    · split at h
      · obtain rfl := Except.ok.inj h
        exact Or.inl ⟨by simp, rfl, rfl, rfl, rfl⟩
      · split at h
        · obtain rfl := Except.ok.inj h
          exact Or.inl ⟨by simp, rfl, rfl, rfl, rfl⟩
        · simp only [syncBody] at h
          split at h
          · exact absurd h (by simp)
          · obtain rfl := Except.ok.inj h
            exact Or.inr ⟨_, _, _, _, _, _, rfl⟩

/-! ### Concrete inputs used by witnesses and counterexamples -/

/-- Environment whose single source row is empty: fewer values than the
two mapped columns, and in particular no value at the dedup column's
position (`row_id`, index 0). -/
def shortRowEnv : TableEnv :=
  { columnInfo := Except.ok [⟨"row_id", "INTEGER"⟩, ⟨"steps", "INTEGER"⟩],
    ddlOk := true,
    rowsResult := Except.ok [[]],
    keyQueryResult := Except.ok [],
    insertOk := true }

/-- Ordinary two-column environment with one complete and one malformed
(but dedup-readable) source row. -/
def mixedRowsEnv : TableEnv :=
  { columnInfo := Except.ok [⟨"row_id", "INTEGER"⟩, ⟨"steps", "INTEGER"⟩],
    ddlOk := true,
    rowsResult := Except.ok [[Val.int 1, Val.int 10], [Val.int 2]],
    keyQueryResult := Except.ok [],
    insertOk := true }

/-- Environment with no source rows. -/
def emptySourceEnv : TableEnv :=
  { columnInfo := Except.ok [⟨"row_id", "INTEGER"⟩, ⟨"steps", "INTEGER"⟩],
    ddlOk := true,
    rowsResult := Except.ok [],
    keyQueryResult := Except.ok [],
    insertOk := true }

/-- Environment whose existing-key query fails. -/
def keyFailEnv : TableEnv :=
  { columnInfo := Except.ok [⟨"row_id", "INTEGER"⟩, ⟨"steps", "INTEGER"⟩],
    ddlOk := true,
    rowsResult := Except.ok [[Val.int 1, Val.int 10]],
    keyQueryResult := Except.error (),
    insertOk := true }

/-! ### Claims -/

/-- C3: the declared-type-to-destination-type mapping is a deterministic
pure function of the declared type string.  `mapType` is a Lean function,
hence deterministic; it agrees with the spec's rule (after uppercasing:
empty → TEXT, prefix INT → BIGINT, prefix REAL → DOUBLE, prefix BLOB →
BINARY, anything else TEXT) on every string, where the program spells
DOUBLE as `DOUBLE PRECISION` and BINARY as `BYTEA`; the listed concrete
inputs map as claimed. -/
theorem spec_C3_type_mapping :
    (∀ s : String, mapType s = pgRender (specDestType s)) ∧
    mapType "" = "TEXT" ∧ mapType "INTEGER" = "BIGINT" ∧
    mapType "REAL" = "DOUBLE PRECISION" ∧ mapType "BLOB" = "BYTEA" ∧
    mapType "TEXT" = "TEXT" ∧ mapType "VARCHAR(20)" = "TEXT" ∧
    mapType "NUMERIC" = "TEXT" := by
  refine ⟨fun s => ?_, rfl, rfl, rfl, rfl, rfl, rfl, rfl⟩
  unfold mapType specDestType
  by_cases h1 : upperStr s = "" <;>
    by_cases h2 : strStartsWith (upperStr s) "INT" = true <;>
      by_cases h3 : strStartsWith (upperStr s) "REAL" = true <;>
        by_cases h4 : strStartsWith (upperStr s) "BLOB" = true <;>
          simp [h1, h2, h3, h4, pgRender]

/-- C4: the dedup key selector returns the first of
`["row_id", "local_date_time", "time"]` present among the column names;
with both a row identifier and a timestamp present, the row identifier
wins; with none present it returns `none`, a valid non-error outcome. -/
theorem spec_C4_dedup_priority (names : List String) :
    (names.contains "row_id" = true → selectDedupCol names = some "row_id") ∧
    (names.contains "row_id" = false → names.contains "local_date_time" = true →
      selectDedupCol names = some "local_date_time") ∧
    (names.contains "row_id" = false → names.contains "local_date_time" = false →
      names.contains "time" = true → selectDedupCol names = some "time") ∧
    (names.contains "row_id" = false → names.contains "local_date_time" = false →
      names.contains "time" = false → selectDedupCol names = none) := by
  refine ⟨fun h1 => ?_, fun h1 h2 => ?_, fun h1 h2 h3 => ?_, fun h1 h2 h3 => ?_⟩ <;>
    simp_all [selectDedupCol, dedupCandidates, List.find?]

/-- C4 witness: with both `row_id` and `time` present, `row_id` wins. -/
theorem spec_C4_dedup_priority_witness :
    selectDedupCol ["time", "row_id"] = some "row_id" :=
  (spec_C4_dedup_priority ["time", "row_id"]).1 (by decide)

/-- C5: the validator keeps exactly the new rows with at least `n`
positional values, submitting their first `n` values in source order
(extra trailing values truncated), and counts the shorter rows as
skipped-malformed instead of adding them to the insert list. -/
theorem spec_C5_row_validation (n : Nat) (rows : List Row) :
    (validateRows n rows).1 =
      (rows.filter (fun r => !decide (r.length < n))).map (fun r => r.take n) ∧
    (validateRows n rows).2 =
      (rows.filter (fun r => decide (r.length < n))).length ∧
    (∀ r ∈ rows, n ≤ r.length → r.take n ∈ (validateRows n rows).1) ∧
    (∀ r ∈ rows, r.length < n → r ∉ (validateRows n rows).1) := by
  have h := validateRows_eq n rows
  refine ⟨congrArg Prod.fst h, congrArg Prod.snd h, ?_, ?_⟩
  · intro r hr hn
    rw [congrArg Prod.fst h]
    exact List.mem_map_of_mem _ (List.mem_filter.mpr ⟨hr, by simp; omega⟩)
  · intro r hr hn hmem
    rw [congrArg Prod.fst h] at hmem
    obtain ⟨x, hx, hxr⟩ := List.mem_map.mp hmem
    have hxlen : ¬ x.length < n := by
      have := (List.mem_filter.mp hx).2
      simpa using this
    have : r.length = n := by
      rw [← hxr, List.length_take]
      omega
    omega

/-- C5 witness: a 3-value row against 2 mapped columns is truncated to
its first 2 values and kept. -/
theorem spec_C5_row_validation_witness :
    [Val.int 1, Val.int 2, Val.int 3].take 2 ∈
      (validateRows 2 [[Val.int 1, Val.int 2, Val.int 3], [Val.int 7]]).1 :=
  (spec_C5_row_validation 2
      [[Val.int 1, Val.int 2, Val.int 3], [Val.int 7]]).2.2.1
    [Val.int 1, Val.int 2, Val.int 3] (by decide) (by decide)

/-- C10: a table outside the inclusion set makes `sync_table` return
right after the filter check: no introspection, no DDL, no source read,
no key query, no insert, zero counts — both stores untouched. -/
theorem spec_C10_filtered_no_ops (table : String) (incl : List String)
    (env : TableEnv) (h : incl.contains table = false) :
    ∃ o : SyncOutcome, syncTable table incl env = Except.ok o ∧
      o.exit = SyncExit.filtered ∧ o.didIntrospect = false ∧
      o.didDDL = false ∧ o.didFetchRows = false ∧ o.didKeyQuery = false ∧
      o.insertAttempted = false ∧ o.submitted = [] ∧ o.insertedCount = 0 ∧
      o.alreadyPresent = 0 ∧ o.skippedMalformed = 0 := by
  refine ⟨{ exit := SyncExit.filtered }, ?_, rfl, rfl, rfl, rfl, rfl, rfl,
    rfl, rfl, rfl, rfl⟩
  have hmem : table ∉ incl := by simpa using h
  simp [syncTable, hmem]

/-- C10 witness: a non-selected table is skipped with no operations. -/
theorem spec_C10_filtered_no_ops_witness :
    ∃ o : SyncOutcome,
      syncTable "sqlite_sequence" ["steps_record_table"] mixedRowsEnv =
        Except.ok o ∧
      o.exit = SyncExit.filtered ∧ o.didIntrospect = false ∧
      o.didDDL = false ∧ o.didFetchRows = false ∧ o.didKeyQuery = false ∧
      o.insertAttempted = false ∧ o.submitted = [] ∧ o.insertedCount = 0 ∧
      o.alreadyPresent = 0 ∧ o.skippedMalformed = 0 :=
  spec_C10_filtered_no_ops "sqlite_sequence" ["steps_record_table"]
    mixedRowsEnv (by decide)

/-- C8: the driver records one outcome per enumerated table, each
table's outcome is a function of that table alone, and a table whose
sync raises is recorded as caught-and-logged while every remaining
table is still processed. -/
theorem spec_C8_driver_isolation (incl : List String)
    (envOf : String → TableEnv) (t : String) (rest : List String) :
    runAll incl envOf (t :: rest) =
      driverStep incl envOf t :: runAll incl envOf rest ∧
    (∀ tables : List String,
      (runAll incl envOf tables).length = tables.length) ∧
    (∀ tables : List String, ∀ i : Nat, ∀ h : i < tables.length,
      (runAll incl envOf tables)[i]? =
        some (driverStep incl envOf (tables.get ⟨i, h⟩))) ∧
    (syncTable t incl (envOf t) = Except.error () →
      runAll incl envOf (t :: rest) =
        DriverOutcome.unhandledLogged :: runAll incl envOf rest) := by
  refine ⟨rfl, fun tables => by simp [runAll], fun tables i h => ?_,
    fun herr => ?_⟩
  · simp [runAll, List.getElem?_eq_getElem h]
  · simp [runAll, driverStep, herr]

/-- C8 witness: the first table's sync raises (empty row under a dedup
column), the driver logs it, and the second table is still processed. -/
theorem spec_C8_driver_isolation_witness :
    runAll ["steps_record_table", "weight_record_table"]
        (fun _ => shortRowEnv)
        ["steps_record_table", "weight_record_table"] =
      DriverOutcome.unhandledLogged ::
        runAll ["steps_record_table", "weight_record_table"]
          (fun _ => shortRowEnv) ["weight_record_table"] :=
  (spec_C8_driver_isolation ["steps_record_table", "weight_record_table"]
      (fun _ => shortRowEnv) "steps_record_table"
      ["weight_record_table"]).2.2.2 (by decide)

/-- C1 counterexample: with a dedup column selected (`row_id`, position
0) and a source row too short to contain a value at that position, the
partition loop's `row[idx]` raises an uncaught IndexError: the row is
not excluded-and-counted, and the table's sync aborts (the claim says it
never does). -/
theorem spec_C1_counterexample :
    syncTable "steps_record_table" ["steps_record_table"] shortRowEnv =
      Except.error () := by decide

/-- C1 amended: a source row with fewer positional values than the
mapped column count is excluded from insertion and counted as malformed,
and never aborts the table sync, provided it still has a value at the
dedup column's position whenever a dedup column is selected; a row too
short even for the dedup position instead raises an error that aborts
the table's sync (caught only at the driver level). -/
theorem spec_C1_amended (table : String) (incl : List String)
    (env : TableEnv) (cols : List SourceColumn) (rows : List Row)
    (hin : incl.contains table = true)
    (hci : env.columnInfo = Except.ok cols)
    (hddl : env.ddlOk = true)
    (hrows : env.rowsResult = Except.ok rows)
    (hlen : ∀ c, selectDedupCol (cols.map SourceColumn.name) = some c →
      ∀ r ∈ rows, (cols.map SourceColumn.name).indexOf c < r.length) :
    ∃ newRows ap o,
      partitionStep (selectDedupCol (cols.map SourceColumn.name))
          (cols.map SourceColumn.name)
          (keysAndWarn (selectDedupCol (cols.map SourceColumn.name))
            env.keyQueryResult).1 rows = Except.ok (newRows, ap) ∧
      syncTable table incl env = Except.ok o ∧
      o.exit = SyncExit.completed ∧
      o.skippedMalformed = (newRows.filter (fun r =>
        decide (r.length < (cols.map SourceColumn.name).length))).length ∧
      o.submitted = (newRows.filter (fun r =>
        !decide (r.length < (cols.map SourceColumn.name).length))).map
          (fun r => r.take (cols.map SourceColumn.name).length) ∧
      (∀ r ∈ newRows, r.length < (cols.map SourceColumn.name).length →
        r ∉ o.submitted) := by
  have hrun := syncTable_run table incl env cols rows hin hci hddl hrows
  rcases hsel : selectDedupCol (cols.map SourceColumn.name) with _ | c
  · refine ⟨rows, 0,
      insertPhase (cols.map SourceColumn.name).length env.insertOk rows 0
        false false, by simp [partitionStep], ?_, ?_, ?_, ?_, ?_⟩
    · rw [hrun, syncBody_none _ _ _ _ hsel]
    · rw [insertPhase_eq]
    · rw [insertPhase_eq]
      exact congrArg Prod.snd (validateRows_eq _ rows)
    · rw [insertPhase_eq]
      exact congrArg Prod.fst (validateRows_eq _ rows)
    · intro r hr hshort hmem
      rw [insertPhase_eq] at hmem
      simp only [congrArg Prod.fst
        (validateRows_eq (cols.map SourceColumn.name).length rows)] at hmem
      obtain ⟨x, hx, hxr⟩ := List.mem_map.mp hmem
      have hxn : ¬ x.length < (cols.map SourceColumn.name).length := by
        simpa using (List.mem_filter.mp hx).2
      have hrn : r.length = (cols.map SourceColumn.name).length := by
        rw [← hxr, List.length_take]; omega
      omega
  · have hl := hlen c hsel
    refine ⟨rows.filter (fun r =>
        !(keysAndWarn (some c) env.keyQueryResult).1.contains
          (rowKey ((cols.map SourceColumn.name).indexOf c) r)),
      (rows.filter (fun r =>
        (keysAndWarn (some c) env.keyQueryResult).1.contains
          (rowKey ((cols.map SourceColumn.name).indexOf c) r))).length,
      insertPhase (cols.map SourceColumn.name).length env.insertOk
        (rows.filter (fun r =>
          !(keysAndWarn (some c) env.keyQueryResult).1.contains
            (rowKey ((cols.map SourceColumn.name).indexOf c) r)))
        ((rows.filter (fun r =>
          (keysAndWarn (some c) env.keyQueryResult).1.contains
            (rowKey ((cols.map SourceColumn.name).indexOf c) r))).length)
        true (keysAndWarn (some c) env.keyQueryResult).2.2,
      ?_, ?_, ?_, ?_, ?_, ?_⟩
    · simp [partitionStep, partitionGo_eq _ _ _ hl]
    · rw [hrun, syncBody_some _ _ _ _ c hsel hl]
    · rw [insertPhase_eq]
    · rw [insertPhase_eq]
      exact congrArg Prod.snd (validateRows_eq _ _)
    · rw [insertPhase_eq]
      exact congrArg Prod.fst (validateRows_eq _ _)
    · intro r hr hshort hmem
      rw [insertPhase_eq] at hmem
      simp only [congrArg Prod.fst
        (validateRows_eq (cols.map SourceColumn.name).length _)] at hmem
      obtain ⟨x, hx, hxr⟩ := List.mem_map.mp hmem
      have hxn : ¬ x.length < (cols.map SourceColumn.name).length := by
        simpa using (List.mem_filter.mp hx).2
      have hrn : r.length = (cols.map SourceColumn.name).length := by
        rw [← hxr, List.length_take]; omega
      omega

/-- C1 amended, witness: one complete and one malformed (dedup-readable)
row; the sync completes, counts one skipped row, submits only the
complete row. -/
theorem spec_C1_amended_witness :
    ∃ newRows ap o,
      partitionStep (selectDedupCol
          (([⟨"row_id", "INTEGER"⟩, ⟨"steps", "INTEGER"⟩] :
            List SourceColumn).map SourceColumn.name))
          (([⟨"row_id", "INTEGER"⟩, ⟨"steps", "INTEGER"⟩] :
            List SourceColumn).map SourceColumn.name)
          (keysAndWarn (selectDedupCol
              (([⟨"row_id", "INTEGER"⟩, ⟨"steps", "INTEGER"⟩] :
                List SourceColumn).map SourceColumn.name))
            mixedRowsEnv.keyQueryResult).1
          [[Val.int 1, Val.int 10], [Val.int 2]] =
        Except.ok (newRows, ap) ∧
      syncTable "steps_record_table" ["steps_record_table"] mixedRowsEnv =
        Except.ok o ∧
      o.exit = SyncExit.completed ∧
      o.skippedMalformed = (newRows.filter (fun r =>
        decide (r.length < (([⟨"row_id", "INTEGER"⟩, ⟨"steps", "INTEGER"⟩] :
          List SourceColumn).map SourceColumn.name).length))).length ∧
      o.submitted = (newRows.filter (fun r =>
        !decide (r.length < (([⟨"row_id", "INTEGER"⟩, ⟨"steps", "INTEGER"⟩] :
          List SourceColumn).map SourceColumn.name).length))).map
          (fun r => r.take (([⟨"row_id", "INTEGER"⟩, ⟨"steps", "INTEGER"⟩] :
            List SourceColumn).map SourceColumn.name).length) ∧
      (∀ r ∈ newRows,
        r.length < (([⟨"row_id", "INTEGER"⟩, ⟨"steps", "INTEGER"⟩] :
          List SourceColumn).map SourceColumn.name).length →
        r ∉ o.submitted) :=
  spec_C1_amended "steps_record_table" ["steps_record_table"] mixedRowsEnv
    [⟨"row_id", "INTEGER"⟩, ⟨"steps", "INTEGER"⟩]
    [[Val.int 1, Val.int 10], [Val.int 2]] (by decide) rfl rfl rfl
    (by
      intro c hc
      have hc2 : (some "row_id" : Option String) = some c := hc
      cases Option.some.inj hc2
      decide)

/-- C2: with a selected dedup column, partition keeps exactly the rows
whose value at the dedup position is not in the existing-key set and
counts the members as already present; with no dedup column every row is
new with a zero already-present count and no error. -/
theorem spec_C2_dedup_partition (names : List String) (K : List Val)
    (rows : List Row) (c : String)
    (hlen : ∀ r ∈ rows, names.indexOf c < r.length) :
    partitionStep (some c) names K rows =
      Except.ok (rows.filter (fun r =>
          !K.contains (rowKey (names.indexOf c) r)),
        (rows.filter (fun r =>
          K.contains (rowKey (names.indexOf c) r))).length) ∧
    (∀ rows' : List Row,
      partitionStep none names K rows' = Except.ok (rows', 0)) := by
  exact ⟨by simpa [partitionStep] using
      partitionGo_eq (names.indexOf c) K rows hlen,
    fun rows' => rfl⟩

/-- C2 witness: the row keyed 1 (present) is counted, the row keyed 2
(absent) is classified new. -/
theorem spec_C2_dedup_partition_witness :
    partitionStep (some "row_id") ["row_id", "steps"] [Val.int 1]
        [[Val.int 1, Val.int 10], [Val.int 2, Val.int 20]] =
      Except.ok ([[Val.int 2, Val.int 20]], 1) := by
  have h := (spec_C2_dedup_partition ["row_id", "steps"] [Val.int 1]
    [[Val.int 1, Val.int 10], [Val.int 2, Val.int 20]] "row_id"
    (by decide)).1
  exact h.trans (by decide)

/-- C6: when the existing-key query fails, a warning is recorded, the
key set degrades to empty, and the table's sync behaves exactly as with
an empty key set (all rows new, `already_present` 0) and completes
rather than aborting. -/
theorem spec_C6_key_query_degrades (table : String) (incl : List String)
    (env : TableEnv) (cols : List SourceColumn) (rows : List Row)
    (c : String)
    (hin : incl.contains table = true)
    (hci : env.columnInfo = Except.ok cols)
    (hddl : env.ddlOk = true)
    (hrows : env.rowsResult = Except.ok rows)
    (hded : selectDedupCol (cols.map SourceColumn.name) = some c)
    (hlen : ∀ r ∈ rows, (cols.map SourceColumn.name).indexOf c < r.length) :
    syncTable table incl { env with keyQueryResult := Except.error () } =
      (syncTable table incl { env with keyQueryResult := Except.ok [] }).map
        (fun o => { o with keyWarn := true }) ∧
    (∃ o, syncTable table incl { env with keyQueryResult := Except.error () } =
        Except.ok o ∧ o.keyWarn = true ∧ o.didKeyQuery = true ∧
        o.exit = SyncExit.completed ∧ o.alreadyPresent = 0) := by
  have e1 := syncTable_run table incl
    { env with keyQueryResult := Except.error () } cols rows hin hci hddl hrows
  have e2 := syncTable_run table incl
    { env with keyQueryResult := Except.ok [] } cols rows hin hci hddl hrows
  rw [e1, e2, syncBody_some _ _ _ _ c hded hlen,
    syncBody_some _ _ _ _ c hded hlen]
  simp only [keysAndWarn]
  constructor
  · simp [Except.map, insertPhase_eq]
  · refine ⟨_, rfl, ?_, ?_, ?_, ?_⟩ <;> simp [insertPhase_eq]

/-- C6 witness: with a failing key query, the sync completes with the
warning flag set and zero rows counted as already present. -/
theorem spec_C6_key_query_degrades_witness :
    ∃ o, syncTable "steps_record_table" ["steps_record_table"]
        { keyFailEnv with keyQueryResult := Except.error () } =
      Except.ok o ∧ o.keyWarn = true ∧ o.didKeyQuery = true ∧
      o.exit = SyncExit.completed ∧ o.alreadyPresent = 0 :=
  (spec_C6_key_query_degrades "steps_record_table" ["steps_record_table"]
    keyFailEnv [⟨"row_id", "INTEGER"⟩, ⟨"steps", "INTEGER"⟩]
    [[Val.int 1, Val.int 10]] "row_id" (by decide) rfl rfl rfl rfl
    (by decide)).2

/-- C7: whenever `sync_table` returns normally with an empty submitted
list, no insert was attempted and the inserted count is zero; and when
the source table is empty, the sync completes with zero inserted, zero
already present, zero malformed, and no error. -/
theorem spec_C7_zero_valid (table : String) (incl : List String)
    (env : TableEnv) (cols : List SourceColumn) (rows : List Row)
    (hin : incl.contains table = true)
    (hci : env.columnInfo = Except.ok cols)
    (hddl : env.ddlOk = true)
    (hrows : env.rowsResult = Except.ok rows) :
    (∀ o : SyncOutcome, syncTable table incl env = Except.ok o →
      o.submitted = [] → o.insertAttempted = false ∧ o.insertedCount = 0 ∧
        o.insertFailed = false) ∧
    (rows = [] → ∃ o, syncTable table incl env = Except.ok o ∧
      o.exit = SyncExit.completed ∧ o.insertAttempted = false ∧
      o.insertedCount = 0 ∧ o.alreadyPresent = 0 ∧ o.submitted = [] ∧
      o.skippedMalformed = 0) := by
  constructor
  · intro o h hsub
    rcases syncTable_shape table incl env o h with
      ⟨_, _, ha, hic, hif⟩ | ⟨n, ok, nr, ap, dkq, kw, rfl⟩
    · exact ⟨ha, hic, hif⟩
    · have hs : (validateRows n nr).1 = [] := by
        simpa [insertPhase_eq] using hsub
      refine ⟨?_, ?_, ?_⟩ <;> simp [insertPhase_eq, hs]
  · intro hr
    subst hr
    have hrun := syncTable_run table incl env cols [] hin hci hddl hrows
    rcases hsel : selectDedupCol (cols.map SourceColumn.name) with _ | c
    · refine ⟨insertPhase (cols.map SourceColumn.name).length env.insertOk
        [] 0 false false, ?_, ?_⟩
      · rw [hrun, syncBody_none _ _ _ _ hsel]
      · refine ⟨?_, ?_, ?_, ?_, ?_, ?_⟩ <;> simp [insertPhase_eq, validateRows]
    · refine ⟨insertPhase (cols.map SourceColumn.name).length env.insertOk
        [] 0 true (keysAndWarn (some c) env.keyQueryResult).2.2, ?_, ?_⟩
      · rw [hrun, syncBody_some _ _ _ _ c hsel (by simp)]
        simp
      · refine ⟨?_, ?_, ?_, ?_, ?_, ?_⟩ <;> simp [insertPhase_eq, validateRows]

/-- C7 witness: an empty source table completes with all counts zero
and no insert attempt. -/
theorem spec_C7_zero_valid_witness :
    ∃ o, syncTable "steps_record_table" ["steps_record_table"]
        emptySourceEnv = Except.ok o ∧
      o.exit = SyncExit.completed ∧ o.insertAttempted = false ∧
      o.insertedCount = 0 ∧ o.alreadyPresent = 0 ∧ o.submitted = [] ∧
      o.skippedMalformed = 0 :=
  (spec_C7_zero_valid "steps_record_table" ["steps_record_table"]
    emptySourceEnv [⟨"row_id", "INTEGER"⟩, ⟨"steps", "INTEGER"⟩] []
    (by decide) rfl rfl rfl).2 rfl

/-- C9: the existing-key set is fixed for the whole pass — partitioning
a concatenation of row batches tests every batch against the same set
(no intra-run updates) — and a row whose dedup value is absent from the
set keeps its full multiplicity among the new rows: several source rows
sharing an absent dedup value are all classified new. -/
theorem spec_C9_keyset_readonly (idx : Nat) (K : List Val)
    (xs ys rows : List Row) (n₁ n₂ : List Row) (a₁ a₂ : Nat)
    (r : Row) (v : Val)
    (hx : partitionGo idx K xs = Except.ok (n₁, a₁))
    (hy : partitionGo idx K ys = Except.ok (n₂, a₂))
    (hlen : ∀ x ∈ rows, idx < x.length)
    (hv : r[idx]? = some v)
    (hnk : K.contains v = false) :
    partitionGo idx K (xs ++ ys) = Except.ok (n₁ ++ n₂, a₁ + a₂) ∧
    partitionGo idx K rows =
      Except.ok (rows.filter (fun x => !K.contains (rowKey idx x)),
        (rows.filter (fun x => K.contains (rowKey idx x))).length) ∧
    countRow r (rows.filter (fun x => !K.contains (rowKey idx x))) =
      countRow r rows := by
  refine ⟨partitionGo_append idx K xs ys n₁ n₂ a₁ a₂ hx hy,
    partitionGo_eq idx K rows hlen, ?_⟩
  apply countRow_filter
  have hkey : rowKey idx r = v := by
    simp [rowKey, List.getD_eq_getElem?_getD, hv]
  have hvk : ¬ v ∈ K := by simpa using hnk
  simp [hkey, hvk]

/-- C9 witness: two identical rows keyed 7 (absent from the key set)
both stay new: their multiplicity among the new rows is 2, as in the
source. -/
theorem spec_C9_keyset_readonly_witness :
    partitionGo 0 [Val.int 5]
        ([[Val.int 7, Val.int 1]] ++ [[Val.int 7, Val.int 1]]) =
      Except.ok ([[Val.int 7, Val.int 1]] ++ [[Val.int 7, Val.int 1]],
        0 + 0) ∧
    partitionGo 0 [Val.int 5] [[Val.int 7, Val.int 1], [Val.int 7, Val.int 1]] =
      Except.ok (([[Val.int 7, Val.int 1], [Val.int 7, Val.int 1]] :
          List Row).filter (fun x =>
            !([Val.int 5] : List Val).contains (rowKey 0 x)),
        ((([[Val.int 7, Val.int 1], [Val.int 7, Val.int 1]] :
          List Row).filter (fun x =>
            ([Val.int 5] : List Val).contains (rowKey 0 x))).length)) ∧
    countRow [Val.int 7, Val.int 1]
        ((([[Val.int 7, Val.int 1], [Val.int 7, Val.int 1]] :
          List Row).filter (fun x =>
            !([Val.int 5] : List Val).contains (rowKey 0 x)))) =
      countRow [Val.int 7, Val.int 1]
        [[Val.int 7, Val.int 1], [Val.int 7, Val.int 1]] :=
  spec_C9_keyset_readonly 0 [Val.int 5] [[Val.int 7, Val.int 1]]
    [[Val.int 7, Val.int 1]] [[Val.int 7, Val.int 1], [Val.int 7, Val.int 1]]
    [[Val.int 7, Val.int 1]] [[Val.int 7, Val.int 1]] 0 0
    [Val.int 7, Val.int 1] (Val.int 7) (by decide) (by decide) (by decide)
    (by decide) (by decide)

end HealthSync
